import Mathlib

/-!
Verification development for the PSA ingestion pipeline
(`app/services` of the unifiedapp repository): per-table line tokenizers,
the three field mappers (Product, Fixture, Planogram) and the validation
engine with its run summaries.

Modeling conventions (shallow embedding of the Python sources):
- Python `str` is Lean `String`; helper functions `py_strip`, `py_split`,
  `py_lower`, `str_starts` model `str.strip`, `str.split`, `str.lower` and
  `str.startswith` on the ASCII repertoire that the data format uses.
- A pandas cell that may be NaN is `Option String` (`none` = NaN); a column
  that may be absent is looked up in an association list of column name to
  cell list.
- Numeric content produced by Python `float` arithmetic is modeled exactly
  as `ℚ` over finite decimal literals (sign, digits, fraction, exponent);
  `str(x)`/`float(...)` round-trips are modeled as the identity on the
  rational value, and the empty-string sentinel becomes `Option.none`.
- The wall-clock instant `datetime.now()` consulted by the Planogram date
  rule is an explicit parameter `now_secs`, counted in seconds from
  0001-01-01 00:00 of the proleptic Gregorian calendar that `datetime` uses.
-/

namespace PSA

/-- Python str.strip: drop leading and trailing whitespace characters. -/
def py_strip (s : String) : String :=
  String.mk (((s.toList.dropWhile Char.isWhitespace).reverse.dropWhile Char.isWhitespace).reverse)

/-- Helper for `py_split`: split a character list at every separator occurrence. -/
def split_chars (sep : Char) : List Char → List (List Char)
  | [] => [[]]
  | c :: cs =>
    match split_chars sep cs with
    | [] => [[]]
    | g :: gs => if c = sep then [] :: g :: gs else (c :: g) :: gs

/-- Python str.split with a one-character separator (keeps empty pieces). -/
def py_split (s : String) (sep : Char) : List String :=
  (split_chars sep s.toList).map String.mk

/-- Python str.lower, on the ASCII letters that occur in the format's markers. -/
def py_lower (s : String) : String := String.mk (s.toList.map Char.toLower)

/-- Python str.startswith, via character-list prefixes. -/
def str_starts (s p : String) : Bool := p.toList.isPrefixOf s.toList

/-- Python substring containment `needle in hay`, on character lists. -/
def has_sub (needle : List Char) : List Char → Bool
  | [] => needle.isEmpty
  | c :: cs => needle.isPrefixOf (c :: cs) || has_sub needle cs

/-- Association-list lookup, modeling dict access / pandas column selection. -/
def alist_lookup {α β : Type} [DecidableEq α] : List (α × β) → α → Option β
  | [], _ => none
  | (k, v) :: rest, a => if k = a then some v else alist_lookup rest a

theorem alist_lookup_mem {α β : Type} [DecidableEq α]
    (m : List (α × β)) (k : α) (v : β) (h : alist_lookup m k = some v) : (k, v) ∈ m := by
  induction m with
  | nil => simp [alist_lookup] at h
  | cons p rest ih =>
    obtain ⟨k0, v0⟩ := p
    by_cases hk : k0 = k
    · subst hk
      simp [alist_lookup] at h
      simp [h]
    · simp [alist_lookup, hk] at h
      exact List.mem_cons_of_mem _ (ih h)

/-- One result record of a single validation check (the ValidationResult
dataclass shared by the product, planogram and fixture validators). -/
structure ValidationResult where
  check_name : String
  status : String
  message : String
  error_count : Nat := 0
  pass_count : Nat := 0
  details : String := ""
deriving DecidableEq, Repr

/-- The passed property of a ValidationResult. -/
def ValidationResult.passed (r : ValidationResult) : Bool := r.status = "PASS"

/-! ## Fixture validator: field-count gate (fixture_validator.validate_field_count) -/

def EXPECTED_FIELD_COUNT : Nat := 166

/-- Model of `max(len(row) for row in fixture_rows)` (0 on an empty list,
which the source never reaches on that branch). -/
def max_cols (rows : List (List String)) : Nat :=
  rows.foldl (fun a r => Nat.max a r.length) 0

/-- Embedding of fixture_validator.validate_field_count. -/
def validate_field_count (fixture_rows : List (List String)) : ValidationResult :=
  let total_rows := fixture_rows.length
  if fixture_rows.isEmpty then
    { check_name := "Field_Count", status := "FAIL",
      message := "Field_Count_Error: No fixture rows found",
      error_count := 1, pass_count := 0,
      details := "PSA file contains no Fixture rows" }
  else
    let mc := max_cols fixture_rows
    if mc ≠ EXPECTED_FIELD_COUNT then
      { check_name := "Field_Count", status := "FAIL",
        message := "Field_Count_Error: Expected " ++ toString EXPECTED_FIELD_COUNT ++
          " fields (Field_0 to Field_165), found " ++ toString mc,
        error_count := total_rows, pass_count := 0,
        details := "Field count mismatch: Expected " ++ toString EXPECTED_FIELD_COUNT ++
          ", Got " ++ toString mc }
    else
      { check_name := "Field_Count", status := "PASS",
        message := "Field count validated: " ++ toString EXPECTED_FIELD_COUNT ++
          " fields (Field_0 to Field_165)",
        error_count := 0, pass_count := total_rows,
        details := "All " ++ toString total_rows ++ " rows have " ++
          toString EXPECTED_FIELD_COUNT ++ " fields" }

/-! ## Fixture mapper (fixture_mapper.extract_and_map_fixture), modeled at the
level of its tokenized rows and the column schema of its output table. -/

def FIXTURE_FIELD_MAPPING : List (String × String) :=
  [("Field_0", "Type"), ("Field_1", "Name"), ("Field_3", "X"), ("Field_4", "Width"),
   ("Field_5", "Y"), ("Field_7", "Z"), ("Field_8", "Depth"), ("Field_12", "Color"),
   ("Field_22", "Merch"), ("Field_26", "Left_Overhang"), ("Field_27", "Right_Overhang"),
   ("Field_30", "Back_Overhang"), ("Field_31", "Front_Overhang"), ("Field_76", "Notch"),
   ("Field_104", "Proof_Notes")]

def FIELDS_TO_KEEP : List String :=
  ["Field_0", "Field_1", "Field_3", "Field_4", "Field_5", "Field_7", "Field_8",
   "Field_12", "Field_22", "Field_26", "Field_27", "Field_30", "Field_31",
   "Field_76", "Field_104"]

/-- Fixture row tokenization from decoded lines (the loop of
extract_and_map_fixture step 1): strip each line, keep those starting with
`Fixture,`, split on commas and drop the leading table-name token. -/
def fixture_rows_of_lines (lines : List String) : List (List String) :=
  lines.filterMap (fun line =>
    let l := py_strip line
    if str_starts l "Fixture," then some ((py_split l ',').tail) else none)

/-- Column schema of the fixture mapper's output table: the 15 kept fields
renamed to business names, with the `Table_Name` marker inserted first. -/
def fixture_output_columns : List String :=
  "Table_Name" :: FIELDS_TO_KEEP.map (fun c => (alist_lookup FIXTURE_FIELD_MAPPING c).getD c)

/-- Embedding of the row gate of extract_and_map_fixture: raise on zero rows,
run the Field_Count validation, raise when it did not pass, and otherwise
build the output table whose columns are `fixture_output_columns`. -/
def extract_and_map_fixture (fixture_rows : List (List String)) : Except String (List String) :=
  if fixture_rows.isEmpty then
    .error "No Fixture rows found in PSA file"
  else
    let field_count_check := validate_field_count fixture_rows
    if field_count_check.passed = false then
      .error ("Validation failed: " ++ field_count_check.message)
    else
      .ok fixture_output_columns

theorem max_cols_eq_of_all (rows : List (List String)) (hne : rows ≠ [])
    (h : ∀ r ∈ rows, r.length = 166) : max_cols rows = 166 := by
  have aux : ∀ (l : List (List String)) (a : Nat), (∀ r ∈ l, r.length = 166) →
      a ≤ 166 → l ≠ [] → l.foldl (fun a r => Nat.max a r.length) a = 166 := by
    intro l
    induction l with
    | nil => intro a _ _ hl; exact absurd rfl hl
    | cons r rest ih =>
      intro a hall ha _
      simp only [List.foldl_cons]
      rcases List.eq_nil_or_concat rest with hrest | _
      · subst hrest
        simp [hall r (by simp), Nat.max_eq_right ha]
      · have hr : r.length = 166 := hall r (by simp)
        by_cases hrest0 : rest = []
        · subst hrest0
          simp [hr, Nat.max_eq_right ha]
        · exact ih (Nat.max a r.length)
            (fun x hx => hall x (List.mem_cons_of_mem _ hx))
            (by simp [hr]; omega) hrest0
  exact aux rows 0 h (by omega) hne

theorem isEmpty_false_of_ne_nil {α : Type} (l : List α) (h : l ≠ []) : l.isEmpty = false := by
  cases l with
  | nil => exact absurd rfl h
  | cons a t => rfl

theorem fixture_gate_ok (rows : List (List String)) (hne : rows ≠ [])
    (hmax : max_cols rows = 166) :
    extract_and_map_fixture rows = .ok fixture_output_columns := by
  simp [extract_and_map_fixture, isEmpty_false_of_ne_nil rows hne, validate_field_count,
    hmax, EXPECTED_FIELD_COUNT, ValidationResult.passed]

/-- Claim C1, corrected: on a non-empty row list the field-count gate keys on
the MAXIMUM field count — extraction fails iff `max_cols rows ≠ 166` — and
whenever it passes (in particular whenever every row has exactly 166 fields)
the output table carries exactly the 16 named columns. -/
theorem C1_fixture_field_count_gate (rows : List (List String)) (hne : rows ≠ []) :
    (max_cols rows = 166 → extract_and_map_fixture rows = .ok fixture_output_columns) ∧
    (max_cols rows ≠ 166 → ∀ cols, extract_and_map_fixture rows ≠ .ok cols) ∧
    ((validate_field_count rows).status = "FAIL" ↔ max_cols rows ≠ 166) ∧
    ((∀ r ∈ rows, r.length = 166) → extract_and_map_fixture rows = .ok fixture_output_columns) ∧
    fixture_output_columns.length = 16 := by
  have hne' : rows.isEmpty = false := isEmpty_false_of_ne_nil rows hne
  refine ⟨fixture_gate_ok rows hne, ?_, ?_, ?_, by decide⟩
  · intro hmax cols
    simp [extract_and_map_fixture, hne', validate_field_count, hmax,
      EXPECTED_FIELD_COUNT, ValidationResult.passed]
  · simp [validate_field_count, hne', EXPECTED_FIELD_COUNT]
    constructor
    · intro h
      by_cases hm : max_cols rows = 166
      · simp [hm] at h
      · exact hm
    · intro h
      simp [h]
  · intro hall
    exact fixture_gate_ok rows hne (max_cols_eq_of_all rows hne hall)

/-- Witness for C1 at a concrete input: a single row of 166 fields passes the
gate and yields the 16-column schema. -/
theorem C1_fixture_field_count_gate_witness :
    extract_and_map_fixture [List.replicate 166 "x"] = .ok fixture_output_columns :=
  (C1_fixture_field_count_gate [List.replicate 166 "x"] (by simp)).2.2.2.1
    (by intro r hr; simp at hr; simp [hr])

/-- Counterexample for C1 as stated: with one 166-field row and one 165-field
row, some row's field count differs from 166 (so the claim says the gate must
fail), yet the gate passes, because only the maximum is compared. -/
theorem C1_counterexample :
    (∃ r ∈ [List.replicate 166 "x", List.replicate 165 "x"], r.length ≠ 166) ∧
    extract_and_map_fixture [List.replicate 166 "x", List.replicate 165 "x"] =
      .ok fixture_output_columns := by
  constructor
  · refine ⟨List.replicate 165 "x", List.mem_cons_of_mem _ (List.mem_cons_self _ _), ?_⟩
    simp
  · have hmax : max_cols [List.replicate 166 "x", List.replicate 165 "x"] = 166 := by
      simp only [max_cols, List.foldl_cons, List.foldl_nil, List.length_replicate]
      decide
    exact fixture_gate_ok _ (by simp) hmax

/-! ## Line tokenizers (product_psa_reader, planogram_psa_reader, fixture
tokenization from extract_and_map_fixture). The decoded file content is
modeled as the list of its lines. -/

/-- Last-field rule of product_psa_reader.parse_psa_line: append the pending
field when it is non-empty or when the line ends with a comma. -/
def psa_last_field_rule (line : String) (cur : List Char) : List String :=
  if cur ≠ [] ∨ (line ≠ "" ∧ line.toList.getLast? = some ',') then
    [String.mk cur.reverse]
  else []

/-- Character loop of parse_psa_line: a backslash escapes the next character
(the escaped character is kept, the backslash dropped; a trailing lone
backslash is kept literally), an unescaped comma separates fields. The
pending field is accumulated in reverse. -/
def parse_psa_go (line : String) : List Char → List Char → List String
  | '\\' :: n :: cs, cur => parse_psa_go line cs (n :: cur)
  | ',' :: cs, cur => String.mk cur.reverse :: parse_psa_go line cs []
  | c :: cs, cur => parse_psa_go line cs (c :: cur)
  | [], cur => psa_last_field_rule line cur

/-- Embedding of product_psa_reader.parse_psa_line. -/
def parse_psa_line (line : String) : List String := parse_psa_go line line.toList []

/-- Embedding of product_psa_reader.read_product_rows_from_bytes over decoded
lines: skip the 3-line PSA header, parse each line, keep rows whose first
field is the literal Product token (the token itself is kept). -/
def read_product_rows_from_lines (lines : List String) : List (List String) :=
  (lines.drop 3).filterMap (fun line =>
    let fields := parse_psa_line line
    if fields.head? = some "Product" then some fields else none)

/-- Character loop of planogram_psa_reader.parse_csv_line: a double quote
toggles the in-quotes state, an unquoted comma separates fields; every other
character is accumulated (in reverse) into the current field. -/
def parse_csv_go : List Char → List Char → Bool → List String
  | [], cur, _ => [String.mk cur.reverse]
  | c :: cs, cur, inQ =>
    if c = '"' then parse_csv_go cs cur (!inQ)
    else if c = ',' ∧ inQ = false then String.mk cur.reverse :: parse_csv_go cs [] inQ
    else parse_csv_go cs (c :: cur) inQ

/-- Embedding of planogram_psa_reader.parse_csv_line. -/
def parse_csv_line (line : String) : List String := parse_csv_go line.toList [] false

/-- Long-text test of merge_long_text_fields: length over 100, or the
stripped field starts with a structured-text marker. -/
def is_long_text (field : String) : Bool :=
  field.length > 100 ||
    (str_starts (py_strip field) "\x7b" || str_starts (py_strip field) "<" ||
      str_starts (py_strip field) "<?xml")

/-- Absorbing inner loop of merge_long_text_fields: keep appending following
fields (space-separated) until a short, unmarked field is reached. -/
def merge_absorb (acc : String) : List String → String × List String
  | [] => (acc, [])
  | f :: rest =>
    if f.length < 50 ∧
        (str_starts (py_strip f) "\x7b" || str_starts (py_strip f) "<") = false then
      (acc, f :: rest)
    else merge_absorb (acc ++ " " ++ f) rest

theorem merge_absorb_length_le (acc : String) (l : List String) :
    (merge_absorb acc l).2.length ≤ l.length := by
  induction l generalizing acc with
  | nil => simp [merge_absorb]
  | cons f rest ih =>
    simp only [merge_absorb]
    split
    · simp
    · exact le_trans (ih _) (by simp)

/-- Embedding of planogram_psa_reader.merge_long_text_fields. -/
def merge_long_text_fields : List String → List String
  | [] => []
  | f :: rest =>
    if is_long_text f then
      let p := merge_absorb f rest
      p.1 :: merge_long_text_fields p.2
    else
      f :: merge_long_text_fields rest
termination_by l => l.length
decreasing_by
  · have := merge_absorb_length_le f rest
    simp only [List.length_cons]
    omega
  · simp

/-- Embedding of planogram_psa_reader.read_planogram_rows_from_bytes over
decoded lines: keep lines starting with the Planogram token, parse them
quote-aware and merge long-text blobs. The leading token is kept in the row. -/
def read_planogram_rows_from_lines (lines : List String) : List (List String) :=
  lines.filterMap (fun line =>
    if str_starts line "Planogram," then
      some (merge_long_text_fields (parse_csv_line line))
    else none)

theorem parse_csv_go_planogram_tok (t : List Char) :
    parse_csv_go ("Planogram,".toList ++ t) [] false = "Planogram" :: parse_csv_go t [] false :=
  rfl

theorem merge_not_long (f : String) (l : List String) (h : is_long_text f = false) :
    merge_long_text_fields (f :: l) = f :: merge_long_text_fields l := by
  rw [merge_long_text_fields]
  simp [h]

theorem merge_nil : merge_long_text_fields [] = [] := by
  rw [merge_long_text_fields]

theorem planogram_line_eval :
    read_planogram_rows_from_lines ["Planogram,a,b"] = [["Planogram", "a", "b"]] := by
  have hs : str_starts "Planogram,a,b" "Planogram," = true := by decide
  have hcsv : parse_csv_line "Planogram,a,b" = ["Planogram", "a", "b"] := by decide
  simp only [read_planogram_rows_from_lines, List.filterMap, hs, if_pos, hcsv]
  rw [merge_not_long _ _ (by decide), merge_not_long _ _ (by decide),
    merge_not_long _ _ (by decide), merge_nil]

/-- Claim C3, corrected: the leading table-kind token is retained in the raw
row for Product AND for Planogram (every tokenized row of either kind begins
with its token), while only the Fixture tokenizer strips it (a Fixture raw
row is the comma-split tail of its stripped line). -/
theorem C3_token_retention :
    (∀ lines row, row ∈ read_product_rows_from_lines lines → row.head? = some "Product") ∧
    (∀ lines row, row ∈ read_planogram_rows_from_lines lines → row.head? = some "Planogram") ∧
    (∀ lines row, row ∈ fixture_rows_of_lines lines →
      ∃ line ∈ lines, str_starts (py_strip line) "Fixture," = true ∧
        row = (py_split (py_strip line) ',').tail) := by
  refine ⟨?_, ?_, ?_⟩
  · intro lines row hrow
    simp only [read_product_rows_from_lines, List.mem_filterMap] at hrow
    obtain ⟨line, _, hline⟩ := hrow
    by_cases h : (parse_psa_line line).head? = some "Product"
    · simp only [h, if_pos] at hline
      have hxr := Option.some.inj hline
      subst hxr
      exact h
    · simp [h] at hline
  · intro lines row hrow
    simp only [read_planogram_rows_from_lines, List.mem_filterMap] at hrow
    obtain ⟨line, _, hline⟩ := hrow
    by_cases h : str_starts line "Planogram," = true
    · simp only [h, if_pos] at hline
      have hxr := Option.some.inj hline
      subst hxr
      have hpre : "Planogram,".toList.isPrefixOf line.toList = true := h
      have hp : "Planogram,".toList <+: line.toList := by
        rw [← List.isPrefixOf_iff_prefix]
        exact hpre
      obtain ⟨t, ht⟩ := hp
      have hcsv : parse_csv_line line = "Planogram" :: parse_csv_go t [] false := by
        rw [parse_csv_line, ← ht, parse_csv_go_planogram_tok]
      rw [hcsv, merge_not_long _ _ (by decide)]
      rfl
    · simp [h] at hline
  · intro lines row hrow
    simp only [fixture_rows_of_lines, List.mem_filterMap] at hrow
    obtain ⟨line, hmem, hline⟩ := hrow
    by_cases h : str_starts (py_strip line) "Fixture," = true
    · simp only [h, if_pos] at hline
      exact ⟨line, hmem, h, (Option.some.inj hline).symm⟩
    · simp [h] at hline

/-- Witness for C3 at concrete inputs: the Planogram and Fixture tokenizers
applied to one-line files of their kinds. -/
theorem C3_token_retention_witness :
    (["Planogram", "a", "b"] : List String).head? = some "Planogram" ∧
    (∃ line ∈ ["Fixture,b"], str_starts (py_strip line) "Fixture," = true ∧
      (["b"] : List String) = (py_split (py_strip line) ',').tail) :=
  ⟨C3_token_retention.2.1 ["Planogram,a,b"] ["Planogram", "a", "b"]
      (by rw [planogram_line_eval]; exact List.mem_singleton.mpr rfl),
    C3_token_retention.2.2 ["Fixture,b"] ["b"] (by decide)⟩

/-- Counterexample for C3 as stated: the Planogram tokenizer keeps the
table-kind token, so its output row for a Planogram line begins with the
token, contrary to the claim that it is stripped. -/
theorem C3_counterexample :
    read_planogram_rows_from_lines ["Planogram,a,b"] = [["Planogram", "a", "b"]] ∧
    ((["Planogram", "a", "b"] : List String).head? = some "Planogram") :=
  ⟨planogram_line_eval, rfl⟩

/-! ## Product column pipeline (xlsx_writer.create_standard_headers and
product_column_remapper), modeled at the level of column-name lists. -/

/-- The six documented positional names of xlsx_writer.create_standard_headers. -/
def known_fields : List (Nat × String) :=
  [(1, "UPC"), (5, "Width_Inches"), (6, "Height_Inches"), (7, "Depth_Inches"),
   (8, "Color"), (237, "Front_Overhang_Inches")]

/-- Header chosen for position i: the documented name when i is a known
field, otherwise the generic positional token. -/
def header_name (i : Nat) : String :=
  (alist_lookup known_fields i).getD ("Field_" ++ toString i)

/-- Embedding of xlsx_writer.create_standard_headers. -/
def create_standard_headers (num_fields : Nat) : List String :=
  (List.range num_fields).map header_name

/-- Embedding of product_column_remapper.get_column_mapping. -/
def get_column_mapping : List (String × String) :=
  [("Field_0", "Table_Name"), ("Field_2", "Item_Number"), ("Field_3", "Item_1_Description"),
   ("Field_12", "Manufacturer"), ("Field_17", "Y_Nesting"), ("Field_18", "Z_Nesting"),
   ("Field_19", "Peg_Holes"), ("Field_20", "Peg_Hole_X"), ("Field_21", "Peg_Hole_Y"),
   ("Field_23", "Peg_Hole_2X"), ("Field_24", "Peg_Hole_2Y"), ("Field_30", "Peg_ID"),
   ("Field_44", "Shape_ID"), ("Field_45", "Bitmap_ID_Override"), ("Field_46", "Tray_Width"),
   ("Field_47", "Tray_Height"), ("Field_48", "Tray_Depth"), ("Field_49", "Tray_Wide"),
   ("Field_50", "Tray_High"), ("Field_51", "Tray_Deep"), ("Field_52", "Tray_Total_#"),
   ("Field_54", "Case_Width"), ("Field_55", "Case_Height"), ("Field_56", "Case_Depth"),
   ("Field_60", "Case_Pack"), ("Field_62", "Display_Width"), ("Field_63", "Display_Height"),
   ("Field_64", "Display_Depth"), ("Field_70", "Alternate_Width"),
   ("Field_71", "Alternate_Height"), ("Field_72", "Alternate_Depth"),
   ("Field_118", "Order_Type"), ("Field_130", "Has_Alt_UPC"), ("Field_206", "Relay_ID"),
   ("Field_224", "Squeeze_Width"), ("Field_225", "Squeeze_High"), ("Field_226", "Squeeze_Deep"),
   ("Field_227", "Expand_Width"), ("Field_228", "Expand_High"), ("Field_229", "Expand_Deep"),
   ("Field_237", "Front_Overhang_Inches")]

/-- Renaming of one column name by the fixed map (df.rename semantics: a name
outside the map is unchanged). -/
def rename_column (c : String) : String := (alist_lookup get_column_mapping c).getD c

/-- Embedding of product_column_remapper.remap_and_clean_columns at the
column-name level: rename, then drop every column still starting with
the raw positional marker. -/
def remap_and_clean_columns (cols : List String) : List String :=
  (cols.map rename_column).filter (fun c => !(str_starts c "Field_"))

/-- Column schema of the final normalized Product table for a file whose
longest raw row has `n` fields (product_extractor steps 2 and 3). -/
def product_final_columns (n : Nat) : List String :=
  remap_and_clean_columns (create_standard_headers n)

/-- Names a final Product column may legally carry: the business names of the
positional rename map together with the six documented header names. -/
def rename_whitelist : List String :=
  get_column_mapping.map Prod.snd ++ known_fields.map Prod.snd

theorem str_starts_append (p s : String) : str_starts (p ++ s) p = true := by
  rw [str_starts, List.isPrefixOf_iff_prefix]
  exact ⟨s.toList, rfl⟩

/-- Claim C5, confirmed: every column of the final normalized Product table is
drawn from the fixed positional-index-to-business-name maps, and no raw
positional `Field_N` name survives into the final table. -/
theorem C5_product_column_whitelist (n : Nat) (c : String)
    (hc : c ∈ product_final_columns n) :
    c ∈ rename_whitelist ∧ str_starts c "Field_" = false := by
  simp only [product_final_columns, remap_and_clean_columns, List.mem_filter,
    Bool.not_eq_eq_eq_not, Bool.not_true, List.mem_map] at hc
  obtain ⟨⟨a0, ha0mem, h0eq⟩, hns⟩ := hc
  refine ⟨?_, hns⟩
  simp only [create_standard_headers, List.mem_map, List.mem_range] at ha0mem
  obtain ⟨i, _, hi⟩ := ha0mem
  rcases hknown : alist_lookup known_fields i with _ | name
  · rw [header_name, hknown, Option.getD_none] at hi
    rcases hmap : alist_lookup get_column_mapping ("Field_" ++ toString i) with _ | v
    · exfalso
      rw [← h0eq, ← hi, rename_column, hmap, Option.getD_none] at hns
      exact absurd hns (by simp [str_starts_append])
    · have hv : ("Field_" ++ toString i, v) ∈ get_column_mapping :=
        alist_lookup_mem _ _ _ hmap
      rw [← h0eq, ← hi, rename_column, hmap, Option.getD_some]
      exact List.mem_append_left _ (List.mem_map.mpr ⟨_, hv, rfl⟩)
  · rw [header_name, hknown, Option.getD_some] at hi
    have hkv : (i, name) ∈ known_fields := alist_lookup_mem _ _ _ hknown
    have hnm : alist_lookup get_column_mapping name = none := by
      fin_cases hkv <;> decide
    rw [← h0eq, ← hi, rename_column, hnm, Option.getD_none]
    exact List.mem_append_right _ (List.mem_map.mpr ⟨_, hkv, rfl⟩)

/-- Witness for C5 at a concrete input: with two raw columns, the final table
is [Table_Name, UPC], and UPC is on the whitelist and is not a raw token. -/
theorem C5_product_column_whitelist_witness :
    "UPC" ∈ rename_whitelist ∧ str_starts "UPC" "Field_" = false :=
  C5_product_column_whitelist 2 "UPC" (by decide)

/-! ## Planogram smart mapper (planogram_mapper.smart_map_planogram_fields).
Dates are triples of proleptic-Gregorian year/month/day as `datetime` uses;
`rata_die` counts days from 0001-01-01 = day 1, so that weekday 0 is Monday
exactly as `datetime.weekday()` reports it. -/

/-- Numeric value of a digit-character list. -/
def nat_of_digits (t : List Char) : Nat := t.foldl (fun a c => 10 * a + (c.toNat - 48)) 0

def is_leap (y : Nat) : Bool := (y % 4 == 0 && y % 100 != 0) || y % 400 == 0

def days_in_month (y m : Nat) : Nat :=
  if m = 2 then (if is_leap y then 29 else 28)
  else if m = 4 ∨ m = 6 ∨ m = 9 ∨ m = 11 then 30
  else 31

def days_before_month (y m : Nat) : Nat :=
  ((List.range (m - 1)).map (fun k => days_in_month y (k + 1))).sum

/-- Day number of y-m-d counting 0001-01-01 as day 1 (proleptic Gregorian). -/
def rata_die (y m d : Nat) : Nat :=
  365 * (y - 1) + (y - 1) / 4 - (y - 1) / 100 + (y - 1) / 400 + days_before_month y m + d

/-- Weekday with Monday = 0, matching datetime.weekday (0001-01-01 is a Monday). -/
def weekday (y m d : Nat) : Nat := (rata_die y m d + 6) % 7

/-- Timestamp of midnight of a date, in seconds from 0001-01-01 00:00. -/
def date_secs (y m d : Nat) : Nat := (rata_die y m d - 1) * 86400

/-- A parsed calendar date. -/
structure PDate where
  year : Nat
  month : Nat
  day : Nat
deriving DecidableEq, Repr

/-- Bounds enforced by the %m and %d regular expressions of strptime on an
all-digit token of one or two digits followed by a slash: the token must
denote a month 1..12 and a day 1..31 (the 0 and 00 tokens match no
alternative, longer values cannot be completed by the following slash). -/
def month_day_regex_ok (mTok dTok : List Char) : Bool :=
  1 ≤ nat_of_digits mTok && nat_of_digits mTok ≤ 12 &&
    (1 ≤ nat_of_digits dTok && nat_of_digits dTok ≤ 31)

/-- Parse attempt with format %m/%d/%Y: the year must be exactly four digits
and at least 1 (datetime.MINYEAR), and the day valid for the month. -/
def strptime_mdY (mTok dTok yTok : List Char) : Option PDate :=
  if yTok.length = 4 ∧ month_day_regex_ok mTok dTok = true then
    let y := nat_of_digits yTok
    if 1 ≤ y ∧ nat_of_digits dTok ≤ days_in_month y (nat_of_digits mTok) then
      some ⟨y, nat_of_digits mTok, nat_of_digits dTok⟩
    else none
  else none

/-- Parse attempt with format %m/%d/%y: the year must be exactly two digits,
mapped to 2000..2068 or 1969..1999 as strptime does. -/
def strptime_mdy (mTok dTok yTok : List Char) : Option PDate :=
  if yTok.length = 2 ∧ month_day_regex_ok mTok dTok = true then
    let yy := nat_of_digits yTok
    let y := if yy ≤ 68 then 2000 + yy else 1900 + yy
    if nat_of_digits dTok ≤ days_in_month y (nat_of_digits mTok) then
      some ⟨y, nat_of_digits mTok, nat_of_digits dTok⟩
    else none
  else none

/-- The format loop of the mapper's date block: try %m/%d/%Y first and fall
back to %m/%d/%y when it raises (the two succeed on disjoint year widths, so
the loop's break-after-first-success equals this orElse). -/
def parse_date_list (cs : List Char) : Option PDate :=
  match split_chars '/' cs with
  | [mTok, dTok, yTok] =>
    (strptime_mdY mTok dTok yTok).orElse (fun _ => strptime_mdy mTok dTok yTok)
  | _ => none

/-- Take exactly k leading digit characters. -/
def take_digits (k : Nat) (cs : List Char) : Option (List Char × List Char) :=
  let t := cs.take k
  if t.length = k ∧ t.all Char.isDigit then some (t, cs.drop k) else none

def expect_slash : List Char → Option (List Char)
  | '/' :: cs => some cs
  | _ => none

/-- Greedy match of a regex group of one-or-two digits followed by a slash,
with backtracking from two digits to one; alternatives are mutually
exclusive (the character after a matched digit pair is a digit, never a
slash), so this committed form equals the regex engine's search. -/
def match_num_slash (cs : List Char) : Option (List Char × List Char) :=
  match take_digits 2 cs with
  | some (t, rest) =>
    (match expect_slash rest with
     | some rest2 => some (t, rest2)
     | none =>
       match take_digits 1 cs with
       | some (t1, rest1) =>
         (match expect_slash rest1 with
          | some rest2 => some (t1, rest2)
          | none => none)
       | none => none)
  | none =>
    match take_digits 1 cs with
    | some (t1, rest1) =>
      (match expect_slash rest1 with
       | some rest2 => some (t1, rest2)
       | none => none)
    | none => none

/-- Greedy match of the trailing two-to-four-digit year group. -/
def take_year (cs : List Char) : Option (List Char) :=
  match take_digits 4 cs with
  | some (t, _) => some t
  | none =>
    match take_digits 3 cs with
    | some (t, _) => some t
    | none =>
      match take_digits 2 cs with
      | some (t, _) => some t
      | none => none

/-- Match of the mapper's date pattern (one-or-two digits, slash, one-or-two
digits, slash, two-to-four digits) anchored at the start of cs, returning the
matched characters. -/
def match_date_at (cs : List Char) : Option (List Char) :=
  match match_num_slash cs with
  | none => none
  | some (mTok, rest1) =>
    match match_num_slash rest1 with
    | none => none
    | some (dTok, rest2) =>
      match take_year rest2 with
      | none => none
      | some yTok => some (mTok ++ '/' :: dTok ++ '/' :: yTok)

/-- Leftmost match of the date pattern (re.search semantics). -/
def search_date : List Char → Option (List Char)
  | [] => none
  | c :: cs =>
    match match_date_at (c :: cs) with
    | some m => some m
    | none => search_date cs

/-- Date block of the mapper, for one field of the search pool: take the
field's first date-pattern match, parse it (%Y format then %y), and accept
it only when it is strictly after the processing instant and is a Monday;
any failure moves on to the next field. -/
def field_date_hit (now_secs : Nat) (field : String) : Option String :=
  match search_date (py_strip field).toList with
  | none => none
  | some dstr =>
    match parse_date_list dstr with
    | none => none
    | some dt =>
      if now_secs < date_secs dt.year dt.month dt.day ∧
          weekday dt.year dt.month dt.day = 0 then
        some (String.mk dstr)
      else none

/-- Loop of the date block over the search pool: first accepted match wins. -/
def planogram_date_search (now_secs : Nat) : List String → String
  | [] => ""
  | f :: rest =>
    match field_date_hit now_secs f with
    | some s => s
    | none => planogram_date_search now_secs rest

/-- Search loop shared by the substring-driven derived fields: the first
field satisfying the predicate wins and is stored stripped. -/
def find_first (p : String → Bool) : List String → String
  | [] => ""
  | f :: rest => if p f then py_strip f else find_first p rest

def target_values : List String := ["14", "17", "20", "22", "71", "74"]

/-- Scan for the first stripped field that is exactly four digits. -/
def find_4digit : List String → String
  | [] => ""
  | g :: rest =>
    let cand := py_strip g
    if cand.toList.length = 4 ∧ cand.toList.all Char.isDigit then cand
    else find_4digit rest

/-- Paired search for indices 9 and 10: first field equal (stripped) to one
of the department codes, then the first four-digit field after it. Index 9
stores the unstripped field. -/
def find_idx9_idx10 : List String → String × String
  | [] => ("", "")
  | f :: rest =>
    if target_values.contains (py_strip f) then (f, find_4digit rest)
    else find_idx9_idx10 rest

/-- First five digit characters of the file-name field (index 19). -/
def first5_digits (s : String) : String :=
  String.mk ((s.toList.filter Char.isDigit).take 5)

/-- Characters six-to-eight of the file-name field, empty when it is shorter
than eight characters (index 20). -/
def chars_6_to_8 (s : String) : String :=
  if 8 ≤ s.toList.length then String.mk ((s.toList.drop 5).take 3) else ""

def after_first_underscore : List Char → Option (List Char)
  | [] => none
  | c :: cs => if c = '_' then some cs else after_first_underscore cs

/-- Digits immediately after the first underscore of the file-name field
(index 21); empty when there is no underscore or no digit follows it. -/
def trait_number_of (s : String) : String :=
  match after_first_underscore s.toList with
  | none => ""
  | some rest =>
    let ds := rest.takeWhile Char.isDigit
    if ds.isEmpty then "" else String.mk ds

/-- The fixed prefix: the first seven fields, padded with empty strings. -/
def prefix_fields (fields : List String) : List String :=
  if 7 ≤ fields.length then fields.take 7
  else fields ++ List.replicate (7 - fields.length) ""

/-- The variable-length remainder searched by the derived fields. -/
def planogram_search_pool (fields : List String) : List String :=
  if 7 < fields.length then fields.drop 7 else []

/-! The float() decimal grammar: optional sign, then digits with an optional
fraction (or a bare fractional part), and an optional exponent. Values are
modeled exactly in ℚ; the inf/nan words and underscore separators accepted
by Python are outside the modeled grammar. -/

def py_float_mantissa (cs : List Char) : Option (ℚ × List Char) :=
  let ip := cs.takeWhile Char.isDigit
  let rest := cs.dropWhile Char.isDigit
  match rest with
  | '.' :: rest2 =>
    let fp := rest2.takeWhile Char.isDigit
    let rest3 := rest2.dropWhile Char.isDigit
    if ip = [] ∧ fp = [] then none
    else some ((nat_of_digits ip : ℚ) + (nat_of_digits fp : ℚ) / (10 : ℚ) ^ fp.length, rest3)
  | _ => if ip = [] then none else some ((nat_of_digits ip : ℚ), rest)

def py_float_exp_digits (cs : List Char) : Option (Int × List Char) :=
  match cs with
  | '+' :: rest =>
    let ds := rest.takeWhile Char.isDigit
    if ds = [] then none else some ((nat_of_digits ds : Int), rest.dropWhile Char.isDigit)
  | '-' :: rest =>
    let ds := rest.takeWhile Char.isDigit
    if ds = [] then none else some (-(nat_of_digits ds : Int), rest.dropWhile Char.isDigit)
  | _ =>
    let ds := cs.takeWhile Char.isDigit
    if ds = [] then none else some ((nat_of_digits ds : Int), cs.dropWhile Char.isDigit)

def py_float_exponent (cs : List Char) : Option (Int × List Char) :=
  match cs with
  | 'e' :: rest => py_float_exp_digits rest
  | 'E' :: rest => py_float_exp_digits rest
  | _ => some (0, cs)

/-- Python float() on a finite decimal literal, exactly, as a rational. -/
def py_float? (s : String) : Option ℚ :=
  let cs0 := (py_strip s).toList
  let signed : ℚ × List Char :=
    match cs0 with
    | '+' :: rest => (1, rest)
    | '-' :: rest => (-1, rest)
    | _ => (1, cs0)
  match py_float_mantissa signed.2 with
  | none => none
  | some (m, rest) =>
    match py_float_exponent rest with
    | none => none
    | some (e, rest2) =>
      if rest2 = [] then some (signed.1 * m * (10 : ℚ) ^ e) else none

/-- Index 17: numeric value of prefix field 3 divided by 12; the empty
result (none) covers the empty field, the unparseable field and the zero
value, exactly as the try block does. -/
def width_feet_val (fields : List String) : Option ℚ :=
  let f3 := (prefix_fields fields).getD 3 ""
  if f3 = "" then none
  else
    match py_float? f3 with
    | none => none
    | some v => if v = 0 then none else some (v / 12)

/-- Index 18: index 17 reparsed (an exact round-trip in this model) and
divided by 4 under the same zero/empty rule. -/
def segments_val (fields : List String) : Option ℚ :=
  match width_feet_val fields with
  | none => none
  | some w => if w = 0 then none else some (w / 4)

/-- The 22 named output fields of the Planogram mapper. String-valued cells
keep their text; the two calculated cells hold the exact rational value, none
standing for the empty string. -/
structure PlanogramRecord where
  table_name : String
  modular_description : String
  field_2 : String
  width_inches : String
  height_inches : String
  depth_inches : String
  field_6 : String
  offset : String
  notch_bar_width : String
  department : String
  category : String
  effective_date : String
  print_1 : String
  print_2 : String
  print_3 : String
  print_4 : String
  file_name : String
  width_feet : Option ℚ
  segments : Option ℚ
  drawing_id : String
  footage : String
  trait_number : String
deriving DecidableEq, Repr

/-- Embedding of planogram_mapper.smart_map_planogram_fields. -/
def smart_map_planogram_fields (now_secs : Nat) (fields : List String) : PlanogramRecord :=
  let mapped7 := prefix_fields fields
  let pool := planogram_search_pool fields
  let idx16 := find_first (fun f => has_sub ".psa".toList (py_lower f).toList) pool
  let p910 := find_idx9_idx10 pool
  { table_name := mapped7.getD 0 ""
    modular_description := mapped7.getD 1 ""
    field_2 := mapped7.getD 2 ""
    width_inches := mapped7.getD 3 ""
    height_inches := mapped7.getD 4 ""
    depth_inches := mapped7.getD 5 ""
    field_6 := mapped7.getD 6 ""
    offset := find_first (fun f => has_sub "7.81".toList f.toList) pool
    notch_bar_width := find_first (fun f => has_sub "1.25".toList f.toList) pool
    department := p910.1
    category := p910.2
    effective_date := planogram_date_search now_secs pool
    print_1 := find_first (fun f => has_sub "general_tc".toList (py_lower f).toList) pool
    print_2 := find_first (fun f => has_sub "product listing.pst".toList (py_lower f).toList) pool
    print_3 := find_first
      (fun f => has_sub "shelf".toList (py_lower f).toList && decide ((py_strip f).length < 20)) pool
    print_4 := find_first (fun f => has_sub "nr_p_c_seg.psy".toList (py_lower f).toList) pool
    file_name := idx16
    width_feet := width_feet_val fields
    segments := segments_val fields
    drawing_id := first5_digits idx16
    footage := chars_6_to_8 idx16
    trait_number := trait_number_of idx16 }

/-- The documented names of the 22 output fields in order. -/
def planogram_field_names : List String :=
  ["Table_Name", "Modular_Description", "Field_2", "Width_Inches", "Height_Inches",
   "Depth_Inches", "Field_6", "Offset", "Notch_Bar_Width", "Department", "Category",
   "Effective_Date", "Print_1", "Print_2", "Print_3", "Print_4", "File_Name",
   "Width_Feet", "Segments", "Drawing_ID", "Footage", "Trait_Number"]

/-- The record as the ordered name/value dictionary the mapper returns, the
two rational cells rendered by a given numeral writer (none renders as the
empty string). -/
def record_entries (render : ℚ → String) (r : PlanogramRecord) : List (String × String) :=
  [("Table_Name", r.table_name), ("Modular_Description", r.modular_description),
   ("Field_2", r.field_2), ("Width_Inches", r.width_inches),
   ("Height_Inches", r.height_inches), ("Depth_Inches", r.depth_inches),
   ("Field_6", r.field_6), ("Offset", r.offset),
   ("Notch_Bar_Width", r.notch_bar_width), ("Department", r.department),
   ("Category", r.category), ("Effective_Date", r.effective_date),
   ("Print_1", r.print_1), ("Print_2", r.print_2), ("Print_3", r.print_3),
   ("Print_4", r.print_4), ("File_Name", r.file_name),
   ("Width_Feet", (r.width_feet.map render).getD ""),
   ("Segments", (r.segments.map render).getD ""),
   ("Drawing_ID", r.drawing_id), ("Footage", r.footage),
   ("Trait_Number", r.trait_number)]

theorem prefix_fields_getD (fields : List String) (i : Nat) (h : i < 7) :
    (prefix_fields fields).getD i "" = fields.getD i "" := by
  rw [prefix_fields]
  split
  · rw [List.getD_eq_getElem?_getD, List.getD_eq_getElem?_getD, List.getElem?_take_of_lt h]
  · rename_i hlen
    rw [List.getD_eq_getElem?_getD, List.getD_eq_getElem?_getD]
    by_cases hi : i < fields.length
    · rw [List.getElem?_append_left hi]
    · have hge : fields.length ≤ i := by omega
      rw [List.getElem?_append_right hge,
        List.getElem?_replicate_of_lt (by omega),
        List.getElem?_eq_none_iff.mpr hge]
      rfl

/-- Claim C10, confirmed: the Planogram smart mapper is total: every input
field list (also one shorter than the 7-field prefix) yields a record with
exactly the 22 documented output fields in their fixed order; the prefix
cells default to the empty string where the input is short, every derived
cell degrades independently to its empty value (shown at the empty input,
where all 15 derived cells are empty while the mapper still returns a full
record). -/
theorem C10_smart_map_totality (render : ℚ → String) (now_secs : Nat) (fields : List String) :
    (record_entries render (smart_map_planogram_fields now_secs fields)).map Prod.fst =
      planogram_field_names ∧
    (record_entries render (smart_map_planogram_fields now_secs fields)).length = 22 ∧
    ((smart_map_planogram_fields now_secs fields).table_name = fields.getD 0 "" ∧
      (smart_map_planogram_fields now_secs fields).modular_description = fields.getD 1 "" ∧
      (smart_map_planogram_fields now_secs fields).field_2 = fields.getD 2 "" ∧
      (smart_map_planogram_fields now_secs fields).width_inches = fields.getD 3 "" ∧
      (smart_map_planogram_fields now_secs fields).height_inches = fields.getD 4 "" ∧
      (smart_map_planogram_fields now_secs fields).depth_inches = fields.getD 5 "" ∧
      (smart_map_planogram_fields now_secs fields).field_6 = fields.getD 6 "") ∧
    smart_map_planogram_fields 0 [] =
      { table_name := "", modular_description := "", field_2 := "", width_inches := "",
        height_inches := "", depth_inches := "", field_6 := "", offset := "",
        notch_bar_width := "", department := "", category := "", effective_date := "",
        print_1 := "", print_2 := "", print_3 := "", print_4 := "", file_name := "",
        width_feet := none, segments := none, drawing_id := "", footage := "",
        trait_number := "" } := by
  refine ⟨rfl, rfl, ⟨?_, ?_, ?_, ?_, ?_, ?_, ?_⟩, by decide⟩
  all_goals
    show (prefix_fields fields).getD _ "" = fields.getD _ ""
  all_goals
    exact prefix_fields_getD fields _ (by omega)

theorem width_feet_val_ne_zero (fields : List String) (w : ℚ)
    (h : width_feet_val fields = some w) : w ≠ 0 := by
  rw [width_feet_val] at h
  split at h
  · simp at h
  · split at h
    · simp at h
    · split at h
      · simp at h
      · rename_i v hv
        have hw := Option.some.inj h
        subst hw
        exact div_ne_zero hv (by norm_num)

theorem segments_val_eq_map (fields : List String) :
    segments_val fields = (width_feet_val fields).map (fun w => w / 4) := by
  rw [segments_val]
  rcases hw : width_feet_val fields with _ | w
  · rfl
  · have hnz := width_feet_val_ne_zero fields w hw
    simp [hnz]

def c7_fields : List String := ["Planogram", "m", "f2", "48", "60", "24", "f6"]

theorem c7_width_feet_48 : width_feet_val c7_fields = some 4 := by
  have hf3 : (prefix_fields c7_fields).getD 3 "" = "48" := by decide
  have hp : py_float? "48" = some (1 * ((48 : Nat) : ℚ) * (10 : ℚ) ^ (0 : ℤ)) := rfl
  simp only [width_feet_val, hf3, hp]
  rw [if_neg (by decide : ¬("48" : String) = "")]
  norm_num

theorem c7_segments_1 : segments_val c7_fields = some 1 := by
  rw [segments_val, c7_width_feet_48]
  norm_num

theorem c7_width_feet_zero :
    width_feet_val ["Planogram", "m", "f2", "0", "60", "24", "f6"] = none := by
  have hf3 : (prefix_fields ["Planogram", "m", "f2", "0", "60", "24", "f6"]).getD 3 ""
      = "0" := by decide
  have hp : py_float? "0" = some (1 * ((0 : Nat) : ℚ) * (10 : ℚ) ^ (0 : ℤ)) := rfl
  simp only [width_feet_val, hf3, hp]
  rw [if_neg (by decide : ¬("0" : String) = "")]
  norm_num

theorem c7_width_feet_nonnumeric :
    width_feet_val ["Planogram", "m", "f2", "wide", "60", "24", "f6"] = none := by
  have hf3 : (prefix_fields ["Planogram", "m", "f2", "wide", "60", "24", "f6"]).getD 3 ""
      = "wide" := by decide
  have hp : py_float? "wide" = none := rfl
  simp only [width_feet_val, hf3, hp]
  rw [if_neg (by decide : ¬("wide" : String) = "")]

/-- Claim C7, confirmed: the Width_Feet cell equals the numeric value of
prefix field 3 divided by 12 whenever that field parses as a non-zero
number and is empty otherwise; the Segments cell is Width_Feet divided by 4
under the same rule (and since Width_Feet is never stored as zero, Segments
is empty exactly when Width_Feet is). Shown with concrete instances for
field 3 = 48, 0 and a non-numeric value. -/
theorem C7_width_feet_and_segments (now_secs : Nat) (fields : List String) :
    ((smart_map_planogram_fields now_secs fields).width_feet =
      match py_float? ((prefix_fields fields).getD 3 "") with
      | none => none
      | some v => if v = 0 then none else some (v / 12)) ∧
    ((smart_map_planogram_fields now_secs fields).segments =
      (smart_map_planogram_fields now_secs fields).width_feet.map (fun w => w / 4)) ∧
    (smart_map_planogram_fields 0 c7_fields).width_feet = some 4 ∧
    (smart_map_planogram_fields 0 c7_fields).segments = some 1 ∧
    (smart_map_planogram_fields 0 ["Planogram", "m", "f2", "0", "60", "24", "f6"]).width_feet
      = none ∧
    (smart_map_planogram_fields 0 ["Planogram", "m", "f2", "wide", "60", "24", "f6"]).width_feet
      = none := by
  refine ⟨?_, segments_val_eq_map fields, c7_width_feet_48, c7_segments_1,
    c7_width_feet_zero, c7_width_feet_nonnumeric⟩
  show width_feet_val fields = _
  rw [width_feet_val]
  split
  · rename_i hf3
    rw [hf3]
    rfl
  · rfl

/-! Claim C2 machinery: the claim-side containment predicate, stated the way
the claim reads it (any date-shaped substring anywhere in a remainder field,
parsing to a strictly-future Monday). -/

/-- Shape of an M/D/Y candidate with one-or-two-digit month and day and a
two-to-four-digit year. -/
def mdY_shape (sub : List Char) : Prop :=
  ∃ m d y : List Char, sub = m ++ '/' :: d ++ '/' :: y ∧
    1 ≤ m.length ∧ m.length ≤ 2 ∧ m.all Char.isDigit = true ∧
    1 ≤ d.length ∧ d.length ≤ 2 ∧ d.all Char.isDigit = true ∧
    2 ≤ y.length ∧ y.length ≤ 4 ∧ y.all Char.isDigit = true

/-- Acceptance predicate of the date rule: strictly after the processing
instant and falling on a Monday. -/
def future_monday (now_secs : Nat) (dt : PDate) : Prop :=
  now_secs < date_secs dt.year dt.month dt.day ∧ weekday dt.year dt.month dt.day = 0

/-- The claim's reading of C2: the remainder contains (anywhere inside some
field) a date-shaped substring that parses to a strictly-future Monday. -/
def claim_c2_contains_future_monday (now_secs : Nat) (fields : List String) : Prop :=
  ∃ f ∈ planogram_search_pool fields, ∃ sub : List Char, sub <:+: f.toList ∧
    mdY_shape sub ∧ ∃ dt, parse_date_list sub = some dt ∧ future_monday now_secs dt

theorem match_date_at_ne_nil (cs r : List Char) (h : match_date_at cs = some r) : r ≠ [] := by
  rw [match_date_at] at h
  split at h
  · simp at h
  · split at h
    · simp at h
    · split at h
      · simp at h
      · have := Option.some.inj h
        subst this
        simp

theorem search_date_ne_nil (cs r : List Char) (h : search_date cs = some r) : r ≠ [] := by
  induction cs with
  | nil => simp [search_date] at h
  | cons c t ih =>
    rw [search_date] at h
    split at h
    · rename_i m hm
      have := Option.some.inj h
      subst this
      exact match_date_at_ne_nil _ _ hm
    · exact ih h

theorem field_date_hit_iff (now_secs : Nat) (f s : String) :
    field_date_hit now_secs f = some s ↔
      ∃ dstr dt, search_date (py_strip f).toList = some dstr ∧ s = String.mk dstr ∧
        parse_date_list dstr = some dt ∧ now_secs < date_secs dt.year dt.month dt.day ∧
        weekday dt.year dt.month dt.day = 0 := by
  constructor
  · intro h
    rw [field_date_hit] at h
    split at h
    · simp at h
    · rename_i dstr hs
      split at h
      · simp at h
      · rename_i dt hp
        split at h
        · rename_i hc
          exact ⟨dstr, dt, hs, (Option.some.inj h).symm, hp, hc.1, hc.2⟩
        · simp at h
  · rintro ⟨dstr, dt, hs, rfl, hp, h1, h2⟩
    rw [field_date_hit]
    split
    · rename_i hs2
      rw [hs] at hs2
      simp at hs2
    · rename_i dstr2 hs2
      rw [hs] at hs2
      have hd := Option.some.inj hs2
      subst hd
      split
      · rename_i hp2
        rw [hp] at hp2
        simp at hp2
      · rename_i dt2 hp2
        rw [hp] at hp2
        have := Option.some.inj hp2
        subst this
        rw [if_pos ⟨h1, h2⟩]

theorem field_date_hit_ne_empty (now_secs : Nat) (f s : String)
    (h : field_date_hit now_secs f = some s) : s ≠ "" := by
  obtain ⟨dstr, dt, hs, rfl, _, _, _⟩ := (field_date_hit_iff now_secs f s).mp h
  intro he
  exact search_date_ne_nil _ _ hs (congrArg String.data he)

theorem planogram_date_search_ne_empty_iff (now_secs : Nat) (pool : List String) :
    planogram_date_search now_secs pool ≠ "" ↔
      ∃ f ∈ pool, field_date_hit now_secs f ≠ none := by
  induction pool with
  | nil => simp [planogram_date_search]
  | cons f rest ih =>
    rw [planogram_date_search]
    rcases hf : field_date_hit now_secs f with _ | s
    · simp only [List.mem_cons]
      constructor
      · intro h
        obtain ⟨g, hg, hgh⟩ := ih.mp h
        exact ⟨g, Or.inr hg, hgh⟩
      · rintro ⟨g, hg | hg, hgh⟩
        · subst hg
          exact absurd hf hgh
        · exact ih.mpr ⟨g, hg, hgh⟩
    · constructor
      · intro _
        exact ⟨f, List.mem_cons_self _ _, by simp [hf]⟩
      · intro _
        exact field_date_hit_ne_empty now_secs f s hf

theorem planogram_date_search_eq_findSome (now_secs : Nat) (pool : List String) :
    planogram_date_search now_secs pool =
      (pool.findSome? (field_date_hit now_secs)).getD "" := by
  induction pool with
  | nil => rfl
  | cons f rest ih =>
    rw [planogram_date_search, List.findSome?_cons]
    rcases hf : field_date_hit now_secs f with _ | s
    · exact ih
    · rfl

/-- Claim C2, corrected: the Effective_Date cell is populated iff some
remainder field's FIRST (leftmost) date-pattern match — not every date-like
substring of the field — parses (four-digit-year format first, two-digit
fallback) to a valid calendar date strictly after the processing instant and
on a Monday; the first such field wins and the cell holds its leftmost
matched substring. -/
theorem C2_effective_date_rule (now_secs : Nat) (fields : List String) :
    ((smart_map_planogram_fields now_secs fields).effective_date ≠ "" ↔
      ∃ f ∈ planogram_search_pool fields, field_date_hit now_secs f ≠ none) ∧
    ((smart_map_planogram_fields now_secs fields).effective_date =
      ((planogram_search_pool fields).findSome? (field_date_hit now_secs)).getD "") ∧
    (∀ f s, field_date_hit now_secs f = some s ↔
      ∃ dstr dt, search_date (py_strip f).toList = some dstr ∧ s = String.mk dstr ∧
        parse_date_list dstr = some dt ∧ now_secs < date_secs dt.year dt.month dt.day ∧
        weekday dt.year dt.month dt.day = 0) := by
  exact ⟨planogram_date_search_ne_empty_iff now_secs (planogram_search_pool fields),
    planogram_date_search_eq_findSome now_secs (planogram_search_pool fields),
    fun f s => field_date_hit_iff now_secs f s⟩

def c2_now : Nat := date_secs 2026 10 12

def c2_fields : List String :=
  ["Planogram", "m", "f2", "48", "60", "24", "f6", "9/9/2001 and 1/4/2100"]

/-- Counterexample for C2 as stated: the remainder contains the date
substring 1/4/2100 — a strictly-future Monday — yet the cell stays empty,
because the scan only examines each field's FIRST regex match (here the past
date 9/9/2001) and never the later candidates of the same field. -/
theorem C2_counterexample :
    (smart_map_planogram_fields c2_now c2_fields).effective_date = "" ∧
    claim_c2_contains_future_monday c2_now c2_fields := by
  constructor
  · decide
  · refine ⟨"9/9/2001 and 1/4/2100", by decide, "1/4/2100".toList,
      ⟨"9/9/2001 and ".toList, [], by decide⟩, ?_, ⟨2100, 1, 4⟩, by decide, by decide, by decide⟩
    exact ⟨['1'], ['4'], ['2', '1', '0', '0'], by decide, by decide, by decide, by decide,
      by decide, by decide, by decide, by decide, by decide, by decide⟩

/-! ## Validation engine: the reference cross-check, representative checks
and the per-table run summaries. pandas cells that may be NaN are
`Option String`; a data frame is an association list of column name to
cell list; the reference workbook read is a three-way outcome (file absent,
unreadable/missing sheet, or a readable handoff sheet). -/

/-- Set construction with first-appearance order (the order is irrelevant to
every statement below, which only uses set membership). -/
def dedup_go (seen : List String) : List String → List String
  | [] => []
  | x :: xs => if x ∈ seen then dedup_go seen xs else x :: dedup_go (x :: seen) xs

def dedup_keep_first (l : List String) : List String := dedup_go [] l

theorem mem_dedup_go (l : List String) : ∀ (seen : List String) (x : String),
    x ∈ dedup_go seen l ↔ x ∈ l ∧ ¬ x ∈ seen := by
  induction l with
  | nil => intro seen x; simp [dedup_go]
  | cons a xs ih =>
    intro seen x
    rw [dedup_go]
    by_cases ha : a ∈ seen
    · rw [if_pos ha, ih]
      constructor
      · rintro ⟨hx, hns⟩
        exact ⟨List.mem_cons_of_mem _ hx, hns⟩
      · rintro ⟨hx, hns⟩
        rcases List.mem_cons.mp hx with rfl | hx'
        · exact absurd ha hns
        · exact ⟨hx', hns⟩
    · rw [if_neg ha, List.mem_cons, ih]
      constructor
      · rintro (rfl | ⟨hx, hns⟩)
        · exact ⟨List.mem_cons_self _ _, ha⟩
        · refine ⟨List.mem_cons_of_mem _ hx, fun hc => hns (List.mem_cons_of_mem _ hc)⟩
      · rintro ⟨hx, hns⟩
        by_cases hxa : x = a
        · exact Or.inl hxa
        · rcases List.mem_cons.mp hx with rfl | hx'
          · exact absurd rfl hxa
          · refine Or.inr ⟨hx', fun hc => ?_⟩
            rcases List.mem_cons.mp hc with h1 | h1
            · exact hxa h1
            · exact hns h1

theorem mem_dedup_keep_first (l : List String) (x : String) :
    x ∈ dedup_keep_first l ↔ x ∈ l := by
  rw [dedup_keep_first, mem_dedup_go]
  simp

theorem nodup_dedup_go (l : List String) : ∀ seen : List String, (dedup_go seen l).Nodup := by
  induction l with
  | nil => intro seen; simp [dedup_go]
  | cons a xs ih =>
    intro seen
    rw [dedup_go]
    by_cases ha : a ∈ seen
    · rw [if_pos ha]; exact ih seen
    · rw [if_neg ha]
      refine List.Nodup.cons ?_ (ih (a :: seen))
      intro hmem
      exact ((mem_dedup_go xs (a :: seen) a).mp hmem).2 (List.mem_cons_self _ _)

/-- Normalization used by the reference check: str(x).lstrip('0') or '0'. -/
def strip_leading_zeros (s : String) : String :=
  let t := String.mk (s.toList.dropWhile (fun c => c = '0'))
  if t = "" then "0" else t

/-- The normalized value set of a column (set(... for ... in unique)). -/
def normalized_set (vals : List String) : List String :=
  dedup_keep_first (vals.map strip_leading_zeros)

/-- Normalized values present in the data but absent from the reference. -/
def dept_missing (data_vals excel_vals : List String) : List String :=
  (normalized_set data_vals).filter (fun v => decide (¬ v ∈ normalized_set excel_vals))

/-- Outcome of reading the optional reference workbook: no bytes were
provided, pd.read_excel raised (unreadable file or missing handoff sheet),
or the handoff sheet was read with its columns. -/
inductive ExcelRef where
  | absent
  | unreadable
  | handoff (columns : List (String × List String))

/-- Embedding of planogram_validator.check_department_against_excel_reference
(the message paragraphs are abbreviated; the source additionally sorts the
listed values, which no claim depends on). -/
def check_department_against_excel_reference (ref : ExcelRef)
    (df : List (String × List String)) : ValidationResult :=
  match ref with
  | .absent =>
    { check_name := "Department Match Against Reference File", status := "WARNING",
      message := "Excel reference file not provided - skipping validation",
      error_count := 0, pass_count := 0,
      details := "Upload an Excel reference file to enable this validation" }
  | .unreadable =>
    { check_name := "Department Match Against Reference File", status := "FAIL",
      message := "Error reading Excel reference file",
      error_count := 1, pass_count := 0,
      details := "Check that the Excel file format is correct and contains a handoff sheet" }
  | .handoff cols =>
    match alist_lookup cols "Department" with
    | none =>
      { check_name := "Department Match Against Reference File", status := "FAIL",
        message := "Department column not found in Excel reference file",
        error_count := 1, pass_count := 0,
        details := "Excel columns listing" }
    | some excel_vals =>
      match alist_lookup df "Department" with
      | none =>
        { check_name := "Department Match Against Reference File", status := "WARNING",
          message := "Department column not found in planogram data",
          error_count := 0, pass_count := 0,
          details := "Cannot validate - Department column missing from planogram" }
      | some data_vals =>
        let planogram_departments := normalized_set data_vals
        let missing := dept_missing data_vals excel_vals
        if missing = [] then
          { check_name := "Department Match Against Reference File", status := "PASS",
            message := "All " ++ toString planogram_departments.length ++
              " planogram department(s) match reference file",
            error_count := 0, pass_count := planogram_departments.length,
            details := "Validated against the reference department(s) from Excel" }
        else
          { check_name := "Department Match Against Reference File", status := "FAIL",
            message := "Planogram contains " ++ toString missing.length ++
              " department(s) not in reference file: " ++ String.intercalate ", " missing,
            error_count := missing.length,
            pass_count := planogram_departments.length - missing.length,
            details := "Valid departments listing" }

/-- Null test of the generic not-null check: NaN, or blank after stripping. -/
def is_null_cell : Option String → Bool
  | none => true
  | some s => decide (py_strip s = "")

/-- Embedding of planogram_validator.DataValidator._check_field_not_null. -/
def check_field_not_null (field_name : String)
    (df : List (String × List (Option String))) : ValidationResult :=
  match alist_lookup df field_name with
  | none =>
    { check_name := field_name ++ " Not Null", status := "WARNING",
      message := field_name ++ " column not found", error_count := 0, pass_count := 0,
      details := "Column does not exist in dataset" }
  | some col =>
    let total_rows := col.length
    let error_count := (col.filter is_null_cell).length
    if error_count = 0 then
      { check_name := field_name ++ " Not Null", status := "PASS",
        message := "All " ++ toString total_rows ++ " records have " ++ field_name ++
          " populated",
        error_count := 0, pass_count := total_rows, details := "" }
    else
      { check_name := field_name ++ " Not Null", status := "FAIL",
        message := toString error_count ++ " of " ++ toString total_rows ++
          " records have null/empty " ++ field_name,
        error_count := error_count, pass_count := total_rows - error_count,
        details := "Failed row listing" }

/-- Occurrences of a non-null value in the column (value_counts entry). -/
def count_val (col : List (Option String)) (v : String) : Nat :=
  (col.filter (fun c => decide (c = some v))).length

/-- The most frequent unique value (value_counts index 0); on equal counts
the first-appearing value is kept, one of the orders pandas may produce. -/
def pick_most_common (col : List (Option String)) : List String → String
  | [] => ""
  | v :: vs =>
    vs.foldl (fun best w => if count_val col best < count_val col w then w else best) v

/-- Embedding of product_validator.DataValidator.check_relay_id_uniformity;
the column is none when Relay_ID is absent, cells are none when NaN. -/
def check_relay_id_uniformity (relay_col : Option (List (Option String))) : ValidationResult :=
  match relay_col with
  | none =>
    { check_name := "Relay_ID Uniformity", status := "WARNING",
      message := "Relay_ID column not found", error_count := 0, pass_count := 0,
      details := "Column does not exist in dataset" }
  | some col =>
    match dedup_keep_first (col.filterMap id) with
    | [] =>
      { check_name := "Relay_ID Uniformity", status := "WARNING",
        message := "No Relay_ID values found", error_count := 0, pass_count := 0,
        details := "All Relay_ID values are null/empty" }
    | [v] =>
      { check_name := "Relay_ID Uniformity", status := "PASS",
        message := "All UPCs have uniform Relay_ID: " ++ v,
        error_count := 0, pass_count := col.length,
        details := "Total UPCs checked: " ++ toString col.length }
    | v :: w :: vs =>
      let expected := pick_most_common col (v :: w :: vs)
      let error_count := (col.filter (fun c => decide (¬ c = some expected))).length
      { check_name := "Relay_ID Uniformity", status := "FAIL",
        message := "Non-uniform Relay_IDs found: " ++ toString (v :: w :: vs).length ++
          " different values",
        error_count := error_count, pass_count := col.length - error_count,
        details := "Relay_ID distribution listing" }

/-- One entry of a summary dictionary: a tally or a status label. -/
inductive SummaryVal where
  | count (n : Nat)
  | label (s : String)
deriving DecidableEq, Repr

def count_status (results : List ValidationResult) (st : String) : Nat :=
  (results.filter (fun r => decide (r.status = st))).length

/-- Tally of the fixture summary's failed entries (not passed AND status
FAIL, as validate_fixture_data spells it). -/
def fixture_failed (results : List ValidationResult) : Nat :=
  (results.filter (fun r => !r.passed && decide (r.status = "FAIL"))).length

/-- Embedding of planogram_validator.DataValidator.get_summary: four tallies
and NO overall_status entry. -/
def planogram_get_summary (results : List ValidationResult) : List (String × SummaryVal) :=
  [("total_checks", .count results.length),
   ("passed", .count (count_status results "PASS")),
   ("failed", .count (count_status results "FAIL")),
   ("warnings", .count (count_status results "WARNING"))]

/-- Embedding of the summary dict of fixture_validator.validate_fixture_data. -/
def fixture_summary (results : List ValidationResult) : List (String × SummaryVal) :=
  [("total_checks", .count results.length),
   ("passed", .count (results.filter (fun r => r.passed)).length),
   ("failed", .count (fixture_failed results)),
   ("warnings", .count (count_status results "WARNING")),
   ("overall_status", .label (if fixture_failed results = 0 then "PASS" else "FAIL"))]

/-- Embedding of product_validator.DataValidator.get_summary. -/
def product_get_summary (results : List ValidationResult) : List (String × SummaryVal) :=
  [("total_checks", .count results.length),
   ("passed", .count (count_status results "PASS")),
   ("failed", .count (count_status results "FAIL")),
   ("warnings", .count (count_status results "WARNING")),
   ("total_errors", .count (results.map (fun r => r.error_count)).sum),
   ("overall_status", .label (if count_status results "FAIL" = 0 then "PASS" else "FAIL"))]

theorem fixture_failed_eq (results : List ValidationResult) :
    fixture_failed results = count_status results "FAIL" := by
  rw [fixture_failed, count_status]
  congr 1
  apply List.filter_congr
  intro r _
  by_cases h : r.status = "FAIL"
  · simp [ValidationResult.passed, h]
  · simp [ValidationResult.passed, h]

theorem count_status_eq_zero (results : List ValidationResult) (st : String) :
    count_status results st = 0 ↔ ∀ r ∈ results, r.status ≠ st := by
  rw [count_status, List.length_eq_zero, List.filter_eq_nil_iff]
  simp

/-- Claim C6, corrected: the Fixture and Product run summaries carry
total_checks/passed/failed/warnings and overall_status (the Product variant
additionally total_errors), with overall_status = FAIL exactly when some
result has status FAIL — a Warning alone never flips it; but the Planogram
variant's summary lacks the overall_status key altogether, carrying only the
four tallies. -/
theorem C6_run_summary (results : List ValidationResult) :
    ((fixture_summary results).map Prod.fst =
      ["total_checks", "passed", "failed", "warnings", "overall_status"]) ∧
    ((product_get_summary results).map Prod.fst =
      ["total_checks", "passed", "failed", "warnings", "total_errors", "overall_status"]) ∧
    ((planogram_get_summary results).map Prod.fst =
      ["total_checks", "passed", "failed", "warnings"]) ∧
    (alist_lookup (fixture_summary results) "overall_status" =
        some (.label "FAIL") ↔ ∃ r ∈ results, r.status = "FAIL") ∧
    (alist_lookup (product_get_summary results) "overall_status" =
        some (.label "FAIL") ↔ ∃ r ∈ results, r.status = "FAIL") ∧
    ((∀ r ∈ results, r.status ≠ "FAIL") →
      alist_lookup (fixture_summary results) "overall_status" = some (.label "PASS") ∧
      alist_lookup (product_get_summary results) "overall_status" = some (.label "PASS")) := by
  have hfx : alist_lookup (fixture_summary results) "overall_status" =
      some (.label (if fixture_failed results = 0 then "PASS" else "FAIL")) := rfl
  have hpr : alist_lookup (product_get_summary results) "overall_status" =
      some (.label (if count_status results "FAIL" = 0 then "PASS" else "FAIL")) := rfl
  have key : ∀ n : Nat, n = count_status results "FAIL" →
      ((if n = 0 then "PASS" else "FAIL") = "FAIL" ↔ ∃ r ∈ results, r.status = "FAIL") := by
    intro n hn
    by_cases h0 : n = 0
    · simp only [h0, if_pos rfl]
      constructor
      · intro hab
        exact absurd hab (by decide)
      · rintro ⟨r, hr, hst⟩
        have := (count_status_eq_zero results "FAIL").mp (hn ▸ h0) r hr
        exact absurd hst this
    · simp only [if_neg h0]
      constructor
      · intro _
        by_contra hne
        push_neg at hne
        exact h0 (hn ▸ (count_status_eq_zero results "FAIL").mpr hne)
      · intro _
        decide
  refine ⟨rfl, rfl, rfl, ?_, ?_, ?_⟩
  · rw [hfx]
    simp only [Option.some.injEq, SummaryVal.label.injEq]
    exact key (fixture_failed results) (fixture_failed_eq results)
  · rw [hpr]
    simp only [Option.some.injEq, SummaryVal.label.injEq]
    exact key (count_status results "FAIL") rfl
  · intro hall
    have hz : count_status results "FAIL" = 0 := (count_status_eq_zero results "FAIL").mpr hall
    have hz2 : fixture_failed results = 0 := by rw [fixture_failed_eq]; exact hz
    rw [hfx, hpr, hz, hz2]
    exact ⟨rfl, rfl⟩

/-- Counterexample for C6 as stated: the Planogram get_summary dictionary has
no overall_status key. -/
theorem C6_counterexample :
    ¬ "overall_status" ∈ (planogram_get_summary
      [{ check_name := "X", status := "PASS", message := "ok" }]).map Prod.fst := by
  decide

/-- Witness for C6 at a concrete input: a single passing result yields
overall_status PASS in the Fixture and Product summaries. -/
theorem C6_run_summary_witness :
    alist_lookup (fixture_summary [{ check_name := "X", status := "PASS", message := "ok" }])
        "overall_status" = some (.label "PASS") ∧
    alist_lookup (product_get_summary [{ check_name := "X", status := "PASS", message := "ok" }])
        "overall_status" = some (.label "PASS") :=
  (C6_run_summary [{ check_name := "X", status := "PASS", message := "ok" }]).2.2.2.2.2
    (by intro r hr; rw [List.mem_singleton] at hr; subst hr; decide)

/-- Claim C4, corrected: an absent reference file or a Department column
missing from the planogram DATA degrade to Warning; but an unreadable
reference file (or missing handoff sheet) and a Department column missing
from the REFERENCE sheet produce a Fail with error_count 1; with both
columns present the check passes iff no normalized data value is missing
from the reference. -/
theorem C4_reference_check_statuses (cols df : List (String × List String)) :
    ((check_department_against_excel_reference .absent df).status = "WARNING" ∧
      (check_department_against_excel_reference .absent df).error_count = 0) ∧
    ((check_department_against_excel_reference .unreadable df).status = "FAIL" ∧
      (check_department_against_excel_reference .unreadable df).error_count = 1) ∧
    (alist_lookup cols "Department" = none →
      (check_department_against_excel_reference (.handoff cols) df).status = "FAIL" ∧
      (check_department_against_excel_reference (.handoff cols) df).error_count = 1) ∧
    (∀ evals, alist_lookup cols "Department" = some evals →
      alist_lookup df "Department" = none →
      (check_department_against_excel_reference (.handoff cols) df).status = "WARNING" ∧
      (check_department_against_excel_reference (.handoff cols) df).error_count = 0) ∧
    (∀ evals dvals, alist_lookup cols "Department" = some evals →
      alist_lookup df "Department" = some dvals →
      ((check_department_against_excel_reference (.handoff cols) df).status = "PASS" ↔
        dept_missing dvals evals = []) ∧
      ((check_department_against_excel_reference (.handoff cols) df).status = "FAIL" ↔
        dept_missing dvals evals ≠ [])) := by
  refine ⟨⟨rfl, rfl⟩, ⟨rfl, rfl⟩, ?_, ?_, ?_⟩
  · intro h
    simp [check_department_against_excel_reference, h]
  · intro evals h1 h2
    simp [check_department_against_excel_reference, h1, h2]
  · intro evals dvals h1 h2
    simp only [check_department_against_excel_reference, h1, h2]
    by_cases hm : dept_missing dvals evals = []
    · simp [hm]
    · simp [hm]

/-- Counterexample for C4 as stated: both the unreadable-reference case and
the missing-reference-column case return status FAIL, not Warning. -/
theorem C4_counterexample :
    (check_department_against_excel_reference .unreadable
      [("Department", ["1"])]).status = "FAIL" ∧
    (check_department_against_excel_reference (.handoff [("Other", [])])
      [("Department", ["1"])]).status = "FAIL" :=
  ⟨rfl, rfl⟩

/-- Witness for C4 at a concrete input: a readable sheet without a
Department column fails with error_count 1. -/
theorem C4_reference_check_statuses_witness :
    (check_department_against_excel_reference (.handoff [("Col", [])])
        [("Department", ["1"])]).status = "FAIL" ∧
    (check_department_against_excel_reference (.handoff [("Col", [])])
        [("Department", ["1"])]).error_count = 1 :=
  (C4_reference_check_statuses [("Col", [])] [("Department", ["1"])]).2.2.1 rfl

theorem mem_dept_missing (data_vals excel_vals : List String) (v : String) :
    v ∈ dept_missing data_vals excel_vals ↔
      (∃ d ∈ data_vals, v = strip_leading_zeros d) ∧
        ¬ v ∈ excel_vals.map strip_leading_zeros := by
  rw [dept_missing, List.mem_filter]
  simp only [normalized_set, mem_dedup_keep_first, List.mem_map, decide_eq_true_eq]
  constructor
  · rintro ⟨⟨d, hd, hdv⟩, hno⟩
    exact ⟨⟨d, hd, hdv.symm⟩, fun hc => hno hc⟩
  · rintro ⟨⟨d, hd, hdv⟩, hno⟩
    exact ⟨⟨d, hd, hdv.symm⟩, fun hc => hno hc⟩

theorem dept_missing_nil_iff (data_vals excel_vals : List String) :
    dept_missing data_vals excel_vals = [] ↔
      ∀ v ∈ data_vals, strip_leading_zeros v ∈ excel_vals.map strip_leading_zeros := by
  rw [dept_missing, List.filter_eq_nil_iff]
  simp only [normalized_set, mem_dedup_keep_first, List.mem_map, decide_eq_true_eq, not_not]
  constructor
  · intro h v hv
    exact h (strip_leading_zeros v) ⟨v, hv, rfl⟩
  · rintro h x ⟨d, hd, rfl⟩
    exact h d hd

/-- Claim C8, confirmed: the Department cross-check normalizes both sides by
stripping leading zeros, passes iff every normalized data value appears in
the normalized reference set, and on failure counts and lists exactly the
normalized values present in the data but absent from the reference;
concretely, data 12/007 against reference 12/7 passes, and against
reference 12 alone fails listing exactly 7. -/
theorem C8_department_reference_cross_check (excel_vals data_vals : List String) :
    ((check_department_against_excel_reference (.handoff [("Department", excel_vals)])
        [("Department", data_vals)]).status = "PASS" ↔
      ∀ v ∈ data_vals, strip_leading_zeros v ∈ excel_vals.map strip_leading_zeros) ∧
    ((check_department_against_excel_reference (.handoff [("Department", excel_vals)])
        [("Department", data_vals)]).status = "FAIL" ↔
      dept_missing data_vals excel_vals ≠ []) ∧
    ((check_department_against_excel_reference (.handoff [("Department", excel_vals)])
        [("Department", data_vals)]).status = "FAIL" →
      (check_department_against_excel_reference (.handoff [("Department", excel_vals)])
        [("Department", data_vals)]).error_count = (dept_missing data_vals excel_vals).length) ∧
    (∀ v, v ∈ dept_missing data_vals excel_vals ↔
      (∃ d ∈ data_vals, v = strip_leading_zeros d) ∧
        ¬ v ∈ excel_vals.map strip_leading_zeros) ∧
    (check_department_against_excel_reference (.handoff [("Department", ["12", "7"])])
        [("Department", ["12", "007"])]).status = "PASS" ∧
    (check_department_against_excel_reference (.handoff [("Department", ["12"])])
        [("Department", ["12", "007"])]).status = "FAIL" ∧
    dept_missing ["12", "007"] ["12"] = ["7"] := by
  have hred := C4_reference_check_statuses [("Department", excel_vals)] [("Department", data_vals)]
  obtain ⟨hPASS, hFAIL⟩ := hred.2.2.2.2 excel_vals data_vals rfl rfl
  refine ⟨?_, hFAIL, ?_, mem_dept_missing data_vals excel_vals, by decide, by decide, by decide⟩
  · rw [hPASS]
    exact dept_missing_nil_iff data_vals excel_vals
  · intro h
    simp only [check_department_against_excel_reference, alist_lookup] at h ⊢
    by_cases hm : dept_missing data_vals excel_vals = []
    · simp [hm] at h
    · simp [hm]
theorem pick_most_common_mem (col : List (Option String)) (v : String) (vs : List String) :
    pick_most_common col (v :: vs) ∈ v :: vs := by
  rw [pick_most_common]
  suffices h : ∀ (ws : List String) (b : String),
      (ws.foldl (fun best w => if count_val col best < count_val col w then w else best) b)
        ∈ b :: ws from h vs v
  intro ws
  induction ws with
  | nil => intro b; simp
  | cons w ws ih =>
    intro b
    rw [List.foldl_cons]
    by_cases hb : count_val col b < count_val col w
    · rw [if_pos hb]
      exact List.mem_cons_of_mem _ (ih w)
    · rw [if_neg hb]
      rcases List.mem_cons.mp (ih b) with h1 | h1
      · rw [h1]
        exact List.mem_cons_self _ _
      · exact List.mem_cons_of_mem _ (List.mem_cons_of_mem _ h1)

/-- Claim C9, confirmed over the cited checks (the Fixture field-count gate,
the generic not-null check, the Relay_ID uniformity check and the reference
cross-check): a returned result with status FAIL always carries
error_count at least 1; the non-comparable states (missing column, missing
reference file, empty column) return Warning with zero errors, never
Fail-with-zero-errors. -/
theorem C9_fail_has_errors :
    (∀ rows, (validate_field_count rows).status = "FAIL" →
      1 ≤ (validate_field_count rows).error_count) ∧
    (∀ name df, (check_field_not_null name df).status = "FAIL" →
      1 ≤ (check_field_not_null name df).error_count) ∧
    (∀ relay_col, (check_relay_id_uniformity relay_col).status = "FAIL" →
      1 ≤ (check_relay_id_uniformity relay_col).error_count) ∧
    (∀ ref df, (check_department_against_excel_reference ref df).status = "FAIL" →
      1 ≤ (check_department_against_excel_reference ref df).error_count) := by
  refine ⟨?_, ?_, ?_, ?_⟩
  · intro rows h
    by_cases he : rows.isEmpty = true
    · simp [validate_field_count, he]
    · have he' : rows.isEmpty = false := by
        cases hb : rows.isEmpty
        · rfl
        · exact absurd hb he
      by_cases hm : max_cols rows = EXPECTED_FIELD_COUNT
      · simp [validate_field_count, he', hm] at h
      · simp only [validate_field_count, he', Bool.false_eq_true, if_false, ne_eq, hm,
          not_false_iff, if_true]
        have : rows ≠ [] := by
          cases rows
          · simp at he'
          · simp
        have hlen : 0 < rows.length := List.length_pos.mpr this
        omega
  · intro name df h
    rcases hlook : alist_lookup df name with _ | col
    · simp [check_field_not_null, hlook] at h
    · simp only [check_field_not_null, hlook] at h ⊢
      by_cases hz : (col.filter is_null_cell).length = 0
      · simp [hz] at h
      · simp only [hz, if_false]
        omega
  · intro relay_col h
    rcases relay_col with _ | col
    · simp [check_relay_id_uniformity] at h
    · rcases huniq : dedup_keep_first (col.filterMap id) with _ | ⟨v, _ | ⟨w, vs⟩⟩
      · simp [check_relay_id_uniformity, huniq] at h
      · simp [check_relay_id_uniformity, huniq] at h
      · simp only [check_relay_id_uniformity, huniq]
        have hnodup : (v :: w :: vs).Nodup := by
          rw [← huniq, dedup_keep_first]
          exact nodup_dedup_go _ []
        have hvw : v ≠ w := by
          intro hc
          subst hc
          exact (List.nodup_cons.mp hnodup).1 (List.mem_cons_self _ _)
        have hexp : pick_most_common col (v :: w :: vs) ∈ v :: w :: vs :=
          pick_most_common_mem col v (w :: vs)
        obtain ⟨u, hu, hune⟩ : ∃ u ∈ v :: w :: vs, u ≠ pick_most_common col (v :: w :: vs) := by
          by_cases hv : v = pick_most_common col (v :: w :: vs)
          · exact ⟨w, List.mem_cons_of_mem _ (List.mem_cons_self _ _), fun hc => hvw (hv ▸ hc ▸ rfl)⟩
          · exact ⟨v, List.mem_cons_self _ _, hv⟩
        have humem : some u ∈ col := by
          have h1 : u ∈ dedup_keep_first (col.filterMap id) := by rw [huniq]; exact hu
          have h2 : u ∈ col.filterMap id := (mem_dedup_keep_first _ _).mp h1
          obtain ⟨cell, hcell, hid⟩ := List.mem_filterMap.mp h2
          cases cell with
          | none => simp at hid
          | some x =>
            have : x = u := by simpa using hid
            exact this ▸ hcell
        have hmemf : some u ∈ col.filter
            (fun c => decide (¬ c = some (pick_most_common col (v :: w :: vs)))) := by
          rw [List.mem_filter]
          refine ⟨humem, ?_⟩
          simp only [decide_eq_true_eq]
          intro hc
          exact hune (Option.some.inj hc)
        exact List.length_pos.mpr (List.ne_nil_of_mem hmemf)
  · intro ref df h
    cases ref with
    | absent => simp [check_department_against_excel_reference] at h
    | unreadable => simp [check_department_against_excel_reference]
    | handoff cols =>
      rcases h1 : alist_lookup cols "Department" with _ | evals
      · simp [check_department_against_excel_reference, h1]
      · rcases h2 : alist_lookup df "Department" with _ | dvals
        · simp [check_department_against_excel_reference, h1, h2] at h
        · simp only [check_department_against_excel_reference, h1, h2] at h ⊢
          by_cases hm : dept_missing dvals evals = []
          · simp [hm] at h
          · simp only [hm, if_false]
            have : 0 < (dept_missing dvals evals).length := List.length_pos.mpr hm
            omega

/-- Witness for C9 at a concrete input: a single 1-field row fails the
field-count gate with a positive error count. -/
theorem C9_fail_has_errors_witness :
    1 ≤ (validate_field_count [["a"]]).error_count :=
  C9_fail_has_errors.1 [["a"]] (by decide)

end PSA
